import Mathlib

/-!
Verification of the iteration and state-management loop of the automated
code-generation script `v42-rel1.py`.

The development shallowly embeds the parts of the script that the
specification talks about:

* conversation-history pruning (`prune_history`),
* code-block extraction from triple-backtick fences (`extract_code_blocks`),
* pass/fail verdict classification from the judge reply (`classifyVerdict`),
* the fail-soft completion client (`openai_chat_completion`),
* one iteration of the `main` loop (`iterationStep`), with external effects
  (the model backend, the sandboxed runner, the human feedback prompt)
  supplied by an `Oracle`, and durable file writes recorded as `SaveEvent`s.

Strings are modelled by Lean `String`s and character-level list operations so
that every definition is executable and every concrete claim can be settled
by evaluation.
-/

/-- The ASCII characters matched by Python's `\s` (and stripped by
`str.strip()`): space, tab, newline, carriage return, vertical tab
(code 11) and form feed (code 12). -/
def pyWs (c : Char) : Bool :=
  c == ' ' || c == '\t' || c == '\n' || c == '\r' ||
  c == Char.ofNat 11 || c == Char.ofNat 12

/-- `startsW nd l` holds when the character list `nd` is a leading segment
of `l`. -/
def startsW : List Char → List Char → Bool
  | [], _ => true
  | _ :: _, [] => false
  | a :: nd, b :: l => a == b && startsW nd l

/-- Python's substring test `nd in hay` on character lists: some position of
the haystack starts with the needle. -/
def hasSubL (nd : List Char) : List Char → Bool
  | [] => nd.isEmpty
  | c :: t => startsW nd (c :: t) || hasSubL nd t

/-- Python's substring test `nd in hay` on strings. -/
def hasSub (nd hay : String) : Bool := hasSubL nd.data hay.data

/-- A chat message, i.e. one of the `{"role": ..., "content": ...}` dicts of
`conversation_history`. -/
structure Msg where
  role : String
  content : String
deriving DecidableEq

/-- The retention test of `prune_history` for human feedback:
`msg["role"] == "user" and "User Feedback:" in msg["content"]`. -/
def isFeedbackMsg (m : Msg) : Bool :=
  m.role == "user" && hasSub "User Feedback:" m.content

/-- The step-tag test of `prune_history`:
`"We are in the Code Generation Step." in msg["content"] or
"We are in the Code Judgment Step." in msg["content"]`. -/
def isStepTagged (m : Msg) : Bool :=
  hasSub "We are in the Code Generation Step." m.content ||
  hasSub "We are in the Code Judgment Step." m.content

/-- The `for msg in reversed(remainder)` scan of `prune_history`, applied to
the already-reversed remainder; `count` is `code_round_count`.  The output is
`kept_reversed` (newest first). -/
def pruneLoop (maxR : Nat) : Nat → List Msg → List Msg
  | _, [] => []
  | count, m :: rest =>
    if isFeedbackMsg m then m :: pruneLoop maxR count rest
    else if count < maxR then
      if m.role == "assistant" then m :: pruneLoop maxR count rest
      else if isStepTagged m then m :: pruneLoop maxR (count + 1) rest
      else pruneLoop maxR count rest
    else pruneLoop maxR count rest

/-- `prune_history(conversation_history, max_code_rounds)`: return the input
unchanged when it has at most two messages; otherwise pin the first two
messages and run the reversed retention scan over the remainder, restoring
order afterwards. -/
def prune_history (conversation_history : List Msg) (max_code_rounds : Nat) : List Msg :=
  if conversation_history.length ≤ 2 then conversation_history
  else
    conversation_history.take 2 ++
      (pruneLoop max_code_rounds 0 ((conversation_history.drop 2).reverse)).reverse

/-- The last `n` elements of a list, in order: "the `n` most recent". -/
def rtake (n : Nat) (l : List α) : List α := (l.reverse.take n).reverse

/-- Unfolding of `prune_history` on a transcript with more than two
messages. -/
theorem prune_history_cons₃ (a b c : Msg) (t : List Msg) (n : Nat) :
    prune_history (a :: b :: c :: t) n
      = a :: b :: (pruneLoop n 0 ((c :: t).reverse)).reverse := by
  unfold prune_history
  rw [if_neg (by simp only [List.length_cons]; omega)]
  rfl

/-- Transcripts of at most two messages are returned unchanged. -/
theorem prune_history_short (T : List Msg) (n : Nat) (h : T.length ≤ 2) :
    prune_history T n = T := by
  unfold prune_history
  rw [if_pos h]

/-- The reversed retention scan is idempotent: every message it keeps
re-satisfies, at the same running round count, the branch that kept it. -/
theorem pruneLoop_idem (maxR : Nat) :
    ∀ (l : List Msg) (c : Nat), pruneLoop maxR c (pruneLoop maxR c l) = pruneLoop maxR c l := by
  intro l
  induction l with
  | nil => intro c; rfl
  | cons m t ih =>
    intro c
    by_cases hf : isFeedbackMsg m
    · simp [pruneLoop, hf, ih]
    · by_cases hc : c < maxR
      · by_cases ha : m.role == "assistant"
        · simp [pruneLoop, hf, hc, ha, ih]
        · by_cases hs : isStepTagged m
          · simp [pruneLoop, hf, hc, ha, hs, ih]
          · simp [pruneLoop, hf, hc, ha, hs, ih]
      · simp [pruneLoop, hf, hc, ih]

/-- C1: pruning is idempotent — for every transcript `T` and round budget
`n`, `prune_history (prune_history T n) n = prune_history T n`. -/
theorem prune_history_idempotent (T : List Msg) (n : Nat) :
    prune_history (prune_history T n) n = prune_history T n := by
  match T with
  | [] => rfl
  | [a] => rfl
  | [a, b] => rfl
  | a :: b :: c :: t =>
    rw [prune_history_cons₃]
    cases hK : pruneLoop n 0 ((c :: t).reverse) with
    | nil => simp [prune_history_short]
    | cons k kt =>
      have h2 : ¬ (a :: b :: (k :: kt).reverse).length ≤ 2 := by
        simp only [List.length_cons, List.length_reverse]
        omega
      unfold prune_history
      rw [if_neg h2]
      show ([a, b] : List Msg) ++ (pruneLoop n 0 ((k :: kt).reverse.reverse)).reverse
          = a :: b :: (k :: kt).reverse
      rw [List.reverse_reverse, ← hK, pruneLoop_idem]
      rfl

/-- C8: the first two messages (system prompt and original task description)
of `prune_history T n` are the first two messages of `T`, verbatim, whenever
`T` has at least two messages (the property in fact needs no length
hypothesis). -/
theorem prune_pins_first_two (T : List Msg) (n : Nat) (h : 2 ≤ T.length) :
    (prune_history T n).take 2 = T.take 2 := by
  match T with
  | [] => rfl
  | [a] => rfl
  | [a, b] => rfl
  | a :: b :: c :: t => rw [prune_history_cons₃]; rfl

/-- Witness for C8 on a concrete five-message transcript. -/
theorem prune_pins_first_two_witness :
    (prune_history
        [⟨"system", "sys"⟩, ⟨"user", "task"⟩,
         ⟨"user", "We are in the Code Generation Step.\nx"⟩,
         ⟨"assistant", "reply"⟩] 0).take 2
      = ([⟨"system", "sys"⟩, ⟨"user", "task"⟩,
          ⟨"user", "We are in the Code Generation Step.\nx"⟩,
          ⟨"assistant", "reply"⟩] : List Msg).take 2 :=
  prune_pins_first_two _ 0 (by decide)

/-- Messages that consume the round budget in `prune_history`: exactly those
reaching the branch that increments `code_round_count` — not human feedback,
not role `"assistant"`, and carrying one of the two step tags.  (The code
checks the step tags on every non-assistant message, not only on `"user"`
ones.) -/
def countedRound (m : Msg) : Bool :=
  !isFeedbackMsg m && !(m.role == "assistant") && isStepTagged m

/-- The claim's notion of a generation/judgment exchange-pair header: a
step-tagged *user* message (that is not human feedback). -/
def isStepUserMsg (m : Msg) : Bool :=
  m.role == "user" && isStepTagged m && !isFeedbackMsg m

/-- The reversed scan keeps every human-feedback message and nothing that it
drops is one: filtering its output for feedback gives the same as filtering
its input. -/
theorem pruneLoop_filter_feedback (maxR : Nat) :
    ∀ (l : List Msg) (c : Nat),
      (pruneLoop maxR c l).filter isFeedbackMsg = l.filter isFeedbackMsg := by
  intro l
  induction l with
  | nil => intro c; rfl
  | cons m t ih =>
    intro c
    by_cases hf : isFeedbackMsg m
    · simp [pruneLoop, hf, List.filter_cons, ih]
    · by_cases hc : c < maxR
      · by_cases ha : m.role == "assistant"
        · simp [pruneLoop, hf, hc, ha, List.filter_cons, ih]
        · by_cases hs : isStepTagged m
          · simp [pruneLoop, hf, hc, ha, hs, List.filter_cons, ih]
          · simp [pruneLoop, hf, hc, ha, hs, List.filter_cons, ih]
      · simp [pruneLoop, hf, hc, List.filter_cons, ih]

/-- The reversed scan keeps exactly the first `maxR - c` budget-consuming
messages it encounters (newest first), in order. -/
theorem pruneLoop_filter_counted (maxR : Nat) :
    ∀ (l : List Msg) (c : Nat),
      (pruneLoop maxR c l).filter countedRound
        = (l.filter countedRound).take (maxR - c) := by
  intro l
  induction l with
  | nil => intro c; simp [pruneLoop]
  | cons m t ih =>
    intro c
    by_cases hf : isFeedbackMsg m
    · have hcnt : countedRound m = false := by simp [countedRound, hf]
      simp [pruneLoop, hf, List.filter_cons, hcnt, ih]
    · by_cases hc : c < maxR
      · by_cases ha : m.role == "assistant"
        · have hcnt : countedRound m = false := by simp [countedRound, ha]
          simp [pruneLoop, hf, hc, ha, List.filter_cons, hcnt, ih]
        · by_cases hs : isStepTagged m
          · have hcnt : countedRound m = true := by
              simp [countedRound, hf, ha, hs]
            have harith : maxR - c = (maxR - (c + 1)) + 1 := by omega
            simp [pruneLoop, hf, hc, ha, hs, List.filter_cons, hcnt, ih, harith]
          · have hcnt : countedRound m = false := by simp [countedRound, hs]
            simp [pruneLoop, hf, hc, ha, hs, List.filter_cons, hcnt, ih]
      · have harith : maxR - c = 0 := by omega
        by_cases hcnt : countedRound m
        · simp [pruneLoop, hf, hc, List.filter_cons, hcnt, ih, harith]
        · simp [pruneLoop, hf, hc, List.filter_cons, hcnt, ih, harith]

/-- C7: every human-feedback message of `T` survives pruning, for every
budget `n` — the filtered feedback sub-lists of `T` and of `prune_history T n`
coincide (so in particular feedback retention never depends on, nor
consumes, the round budget), and membership is preserved. -/
theorem prune_retains_all_feedback (T : List Msg) (n : Nat) :
    (prune_history T n).filter isFeedbackMsg = T.filter isFeedbackMsg ∧
    ∀ m : Msg, m ∈ T → isFeedbackMsg m = true → m ∈ prune_history T n := by
  have hfil : (prune_history T n).filter isFeedbackMsg = T.filter isFeedbackMsg := by
    match T with
    | [] => rfl
    | [a] => rfl
    | [a, b] => rfl
    | a :: b :: c :: t =>
      rw [prune_history_cons₃]
      have h1 : ((pruneLoop n 0 ((c :: t).reverse)).reverse).filter isFeedbackMsg
          = ((c :: t).filter isFeedbackMsg) := by
        rw [List.filter_reverse, pruneLoop_filter_feedback, List.filter_reverse,
          List.reverse_reverse]
      calc (a :: b :: (pruneLoop n 0 ((c :: t).reverse)).reverse).filter isFeedbackMsg
          = ([a, b] : List Msg).filter isFeedbackMsg ++
              ((pruneLoop n 0 ((c :: t).reverse)).reverse).filter isFeedbackMsg := by
            rw [show (a :: b :: (pruneLoop n 0 ((c :: t).reverse)).reverse)
                = [a, b] ++ (pruneLoop n 0 ((c :: t).reverse)).reverse from rfl,
              List.filter_append]
        _ = ([a, b] : List Msg).filter isFeedbackMsg ++ (c :: t).filter isFeedbackMsg := by
            rw [h1]
        _ = (a :: b :: c :: t).filter isFeedbackMsg := by
            rw [← List.filter_append]
            rfl
  refine ⟨hfil, ?_⟩
  intro m hm hfb
  have : m ∈ (prune_history T n).filter isFeedbackMsg := by
    rw [hfil]
    exact List.mem_filter.mpr ⟨hm, hfb⟩
  exact (List.mem_filter.mp this).1

/-- Witness for C7: a concrete feedback message in a concrete transcript
survives pruning with budget `0`. -/
theorem prune_retains_all_feedback_witness :
    (⟨"user", "User Feedback:\nplease tweak"⟩ : Msg) ∈
      prune_history
        [⟨"system", "sys"⟩, ⟨"user", "task"⟩,
         ⟨"user", "User Feedback:\nplease tweak"⟩, ⟨"assistant", "ok"⟩] 0 :=
  (prune_retains_all_feedback _ 0).2 _ (by decide) (by decide)

/-- Counterexample to C6 as stated: the code checks the step tags on every
non-assistant message, so a (hypothetical) `"system"`-role message carrying a
step tag consumes the round budget; with budget 1 the genuinely most recent
step-tagged *user* exchange pair is then dropped while no step-tagged user
message is retained at all. -/
theorem prune_drops_recent_user_pair_cex :
    ((prune_history
        [⟨"system", "sys"⟩, ⟨"user", "task"⟩,
         ⟨"user", "We are in the Code Generation Step.\nA"⟩,
         ⟨"assistant", "r1"⟩,
         ⟨"system", "We are in the Code Judgment Step.\nB"⟩,
         ⟨"assistant", "r2"⟩] 1).drop 2).filter isStepUserMsg
      ≠ rtake 1 ((([⟨"system", "sys"⟩, ⟨"user", "task"⟩,
         ⟨"user", "We are in the Code Generation Step.\nA"⟩,
         ⟨"assistant", "r1"⟩,
         ⟨"system", "We are in the Code Judgment Step.\nB"⟩,
         ⟨"assistant", "r2"⟩] : List Msg).drop 2).filter isStepUserMsg) := by
  decide

/-- C6 as amended: beyond the two pinned messages, `prune_history T n`
retains at most `n` budget-consuming round-header messages (non-assistant,
step-tagged, non-feedback — the code's own classification, which coincides
with "step-tagged user message" on the role-`user`/`assistant` remainders the
program actually builds), and those retained are exactly the `n` most recent
round headers of `T`, in order; older ones are dropped. -/
theorem prune_round_budget_amended (T : List Msg) (n : Nat) :
    ((prune_history T n).drop 2).filter countedRound
        = rtake n ((T.drop 2).filter countedRound) ∧
    (((prune_history T n).drop 2).filter countedRound).length ≤ n := by
  have hmain : ((prune_history T n).drop 2).filter countedRound
      = rtake n ((T.drop 2).filter countedRound) := by
    match T with
    | [] =>
      rw [prune_history_short _ _ (by simp only [List.length_nil]; omega)]
      simp [rtake]
    | [a] =>
      rw [prune_history_short _ _ (by simp only [List.length_cons, List.length_nil]; omega)]
      simp [rtake]
    | [a, b] =>
      rw [prune_history_short _ _ (by simp only [List.length_cons, List.length_nil]; omega)]
      simp [rtake]
    | a :: b :: c :: t =>
      rw [prune_history_cons₃]
      show ((pruneLoop n 0 ((c :: t).reverse)).reverse).filter countedRound
          = rtake n ((c :: t).filter countedRound)
      rw [List.filter_reverse, pruneLoop_filter_counted, Nat.sub_zero,
        List.filter_reverse]
      rfl
  refine ⟨hmain, ?_⟩
  rw [hmain]
  unfold rtake
  simp only [List.length_reverse, List.length_take]
  omega

/-- The backtick character (code 96). -/
def btChar : Char := Char.ofNat 96

/-- The triple-backtick fence delimiter. -/
def fenceL : List Char := [btChar, btChar, btChar]

/-- The optional language hint `(?:python)?` of the extraction pattern. -/
def pyTagL : List Char := ['p', 'y', 't', 'h', 'o', 'n']

/-- Scan for the leftmost occurrence of the fence; on success return the
characters before it and the characters after it (the regex resumes scanning
there).  `none` when no fence occurs. -/
def splitAtFence : List Char → Option (List Char × List Char)
  | a :: a2 :: a3 :: rest =>
    if startsW fenceL (a :: a2 :: a3 :: rest) then some ([], rest)
    else
      match splitAtFence (a2 :: a3 :: rest) with
      | some (pre, post) => some (a :: pre, post)
      | none => none
  | _ => none

/-- Consume the greedy optional `python` tag after an opening fence. -/
def dropTag (l : List Char) : List Char :=
  if startsW pyTagL l then l.drop 6 else l

/-- Strip trailing Python whitespace (the effect of the greedy `\s*` before
the closing fence on the lazy capture). -/
def rstripWs (l : List Char) : List Char :=
  ((l.reverse).dropWhile pyWs).reverse

/-- All captures of `re.findall(r"```(?:python)?\s*(.*?)\s*```", response,
flags=re.DOTALL)`, in order.  The regex semantics are compiled away as
follows: a match must begin at a literal fence (earlier positions fail at
the first literal, and neither the `python` literal nor whitespace can
overlap a fence since neither contains a backtick, so the greedy choices
never backtrack); after the opening fence, the optional `python` tag and the
greedy leading `\s*` are consumed; the lazy `(.*?)\s*```​` then ends the
capture at the earliest closing fence, minus the maximal whitespace run
directly before it (the trailing greedy `\s*`); scanning resumes after the
closing fence.  Fuel bounds the number of matches; `length + 1` always
suffices since each match consumes at least one character. -/
def findAllBlocks : Nat → List Char → List (List Char)
  | 0, _ => []
  | fuel + 1, s =>
    match splitAtFence s with
    | none => []
    | some (_, afterOpen) =>
      match splitAtFence ((dropTag afterOpen).dropWhile pyWs) with
      | none => []
      | some (body, rest) => rstripWs body :: findAllBlocks fuel rest

/-- Python's `code_match[-1]` with empty-list default `""`: the last element
of a list of captures, or the empty capture. -/
def lastD : List (List Char) → List Char
  | [] => []
  | [b] => b
  | _ :: b :: t => lastD (b :: t)

/-- `extract_code_blocks(response)`: the last fenced code block of the
response, with surrounding whitespace consumed by the pattern, or `""` when
no block matches. -/
def extract_code_blocks (response : String) : String :=
  String.mk (lastD (findAllBlocks (response.data.length + 1) response.data))

/-- A successful fence split returns a proper leading segment of its
input. -/
theorem splitAtFence_sub :
    ∀ (l b r : List Char), splitAtFence l = some (b, r) → ∃ u, b ++ u = l
  | [], b, r => by intro h; simp [splitAtFence] at h
  | [a], b, r => by intro h; simp [splitAtFence] at h
  | [a, a2], b, r => by intro h; simp [splitAtFence] at h
  | a :: a2 :: a3 :: rest, b, r => by
    intro h
    unfold splitAtFence at h
    by_cases hc : startsW fenceL (a :: a2 :: a3 :: rest)
    · rw [if_pos hc] at h
      obtain ⟨hb, hr⟩ := Prod.mk.injEq .. ▸ (Option.some.injEq .. ▸ h)
      exact ⟨a :: a2 :: a3 :: rest, by rw [← hb]; rfl⟩
    · rw [if_neg hc] at h
      cases hsp : splitAtFence (a2 :: a3 :: rest) with
      | none => rw [hsp] at h; simp at h
      | some p =>
        obtain ⟨pre, post⟩ := p
        rw [hsp] at h
        obtain ⟨hb, hr⟩ := Prod.mk.injEq .. ▸ (Option.some.injEq .. ▸ h)
        obtain ⟨u, hu⟩ := splitAtFence_sub (a2 :: a3 :: rest) pre post hsp
        exact ⟨u, by rw [← hb]; simpa using hu⟩

/-- When no fence occurs in the input, the fence split fails. -/
theorem splitAtFence_none_of_no_fence :
    ∀ l : List Char, hasSubL fenceL l = false → splitAtFence l = none
  | [] => fun _ => rfl
  | [_] => fun _ => rfl
  | [_, _] => fun _ => rfl
  | a :: a2 :: a3 :: rest => fun h => by
    unfold hasSubL at h
    obtain ⟨h1, h2⟩ := Bool.or_eq_false_iff.mp h
    unfold splitAtFence
    rw [if_neg (by simp [h1])]
    rw [splitAtFence_none_of_no_fence (a2 :: a3 :: rest) h2]

/-- `dropWhile` never lengthens a list. -/
theorem dropWhile_len_le (p : Char → Bool) :
    ∀ l : List Char, (l.dropWhile p).length ≤ l.length := by
  intro l
  induction l with
  | nil => simp
  | cons a t ih =>
    by_cases hp : p a
    · rw [List.dropWhile_cons_of_pos hp]
      exact Nat.le_trans ih (by simp)
    · rw [List.dropWhile_cons_of_neg hp]

/-- A list fixed by `dropWhile p` passes the fixedness on to each of its
leading segments. -/
theorem dropWhile_eq_self_of_sub (p : Char → Bool) :
    ∀ (l₁ u l₂ : List Char), l₁ ++ u = l₂ → l₂.dropWhile p = l₂ →
      l₁.dropWhile p = l₁ := by
  intro l₁ u l₂ happ hfix
  cases l₁ with
  | nil => rfl
  | cons a t =>
    have hpa : p a = false := by
      by_contra hne
      have hpa : p a = true := by revert hne; cases p a <;> simp
      rw [← happ, List.cons_append, List.dropWhile_cons_of_pos hpa] at hfix
      have hlen := dropWhile_len_le p (t ++ u)
      rw [hfix] at hlen
      simp only [List.length_cons, List.length_append] at hlen
      omega
    exact List.dropWhile_cons_of_neg (by simp [hpa])

/-- `dropWhile` is idempotent. -/
theorem dropWhile_idem (p : Char → Bool) (l : List Char) :
    (l.dropWhile p).dropWhile p = l.dropWhile p := by
  induction l with
  | nil => rfl
  | cons a t ih =>
    by_cases hp : p a
    · rw [List.dropWhile_cons_of_pos hp]; exact ih
    · rw [List.dropWhile_cons_of_neg hp, List.dropWhile_cons_of_neg hp]

/-- The part removed by `dropWhile` is a leading segment. -/
theorem dropWhile_sub (p : Char → Bool) :
    ∀ l : List Char, ∃ w, w ++ l.dropWhile p = l := by
  intro l
  induction l with
  | nil => exact ⟨[], rfl⟩
  | cons a t ih =>
    by_cases hp : p a
    · obtain ⟨w, hw⟩ := ih
      exact ⟨a :: w, by rw [List.cons_append, List.dropWhile_cons_of_pos hp, hw]⟩
    · exact ⟨[], by rw [List.dropWhile_cons_of_neg hp]; rfl⟩

/-- Right-stripping returns a leading segment of its input. -/
theorem rstripWs_sub (l : List Char) : ∃ u, rstripWs l ++ u = l := by
  obtain ⟨w, hw⟩ := dropWhile_sub pyWs l.reverse
  refine ⟨w.reverse, ?_⟩
  have := congrArg List.reverse hw
  simpa [rstripWs] using this

/-- Right-stripping leaves no trailing whitespace. -/
theorem rstripWs_trailing (l : List Char) :
    (rstripWs l).reverse.dropWhile pyWs = (rstripWs l).reverse := by
  unfold rstripWs
  rw [List.reverse_reverse]
  exact dropWhile_idem pyWs l.reverse

/-- Unfolding of the extraction scan when no opening fence exists. -/
theorem findAllBlocks_eq_nil₁ (f : Nat) (s : List Char)
    (h1 : splitAtFence s = none) : findAllBlocks (f + 1) s = [] := by
  simp only [findAllBlocks, h1]

/-- Unfolding of the extraction scan when an opening fence has no closing
fence after it. -/
theorem findAllBlocks_eq_nil₂ (f : Nat) (s x afterOpen : List Char)
    (h1 : splitAtFence s = some (x, afterOpen))
    (h2 : splitAtFence ((dropTag afterOpen).dropWhile pyWs) = none) :
    findAllBlocks (f + 1) s = [] := by
  simp only [findAllBlocks, h1, h2]

/-- Unfolding of the extraction scan on a complete match. -/
theorem findAllBlocks_eq_cons (f : Nat) (s x afterOpen body rest : List Char)
    (h1 : splitAtFence s = some (x, afterOpen))
    (h2 : splitAtFence ((dropTag afterOpen).dropWhile pyWs) = some (body, rest)) :
    findAllBlocks (f + 1) s = rstripWs body :: findAllBlocks f rest := by
  simp only [findAllBlocks, h1, h2]

/-- Every capture produced by the extraction scan is free of leading and
trailing whitespace: the pattern's two `\s*` groups consume it. -/
theorem findAllBlocks_trimmed :
    ∀ (fuel : Nat) (s b : List Char), b ∈ findAllBlocks fuel s →
      b.dropWhile pyWs = b ∧ b.reverse.dropWhile pyWs = b.reverse := by
  intro fuel
  induction fuel with
  | zero => intro s b h; simp [findAllBlocks] at h
  | succ f ih =>
    intro s b h
    cases h1 : splitAtFence s with
    | none => rw [findAllBlocks_eq_nil₁ f s h1] at h; simp at h
    | some p1 =>
      obtain ⟨x, afterOpen⟩ := p1
      cases h2 : splitAtFence ((dropTag afterOpen).dropWhile pyWs) with
      | none => rw [findAllBlocks_eq_nil₂ f s x afterOpen h1 h2] at h; simp at h
      | some p2 =>
        obtain ⟨body, rest⟩ := p2
        rw [findAllBlocks_eq_cons f s x afterOpen body rest h1 h2] at h
        simp only [List.mem_cons] at h
        rcases h with h | h
        · subst h
          refine ⟨?_, rstripWs_trailing body⟩
          have hufix : ((dropTag afterOpen).dropWhile pyWs).dropWhile pyWs
              = (dropTag afterOpen).dropWhile pyWs := dropWhile_idem pyWs _
          obtain ⟨u, hu⟩ := splitAtFence_sub _ _ _ h2
          have hbody : body.dropWhile pyWs = body :=
            dropWhile_eq_self_of_sub pyWs body u _ hu hufix
          obtain ⟨u2, hu2⟩ := rstripWs_sub body
          exact dropWhile_eq_self_of_sub pyWs (rstripWs body) u2 body hu2 hbody
        · exact ih rest b h

/-- `lastD` returns an element of the list, or the empty capture. -/
theorem lastD_mem_or_nil :
    ∀ bs : List (List Char), lastD bs = [] ∨ lastD bs ∈ bs
  | [] => Or.inl rfl
  | [b] => Or.inr (by simp [lastD])
  | _ :: b :: t => by
    rcases lastD_mem_or_nil (b :: t) with h | h
    · exact Or.inl (by simpa [lastD] using h)
    · exact Or.inr (by simp [lastD]; right; simpa using h)

/-- C10: for every input, the extracted code has no leading and no trailing
whitespace — the pattern's `\s*` groups consume the whitespace between the
fence delimiters and the block body, so in particular the pending code
stashed from a Fail/Incomplete judge reply is the fenced block's contents
with surrounding whitespace (including the newline after the opening fence)
removed. -/
theorem extract_trimmed (s : String) :
    (extract_code_blocks s).data.dropWhile pyWs = (extract_code_blocks s).data ∧
    (extract_code_blocks s).data.reverse.dropWhile pyWs
      = (extract_code_blocks s).data.reverse := by
  unfold extract_code_blocks
  rcases lastD_mem_or_nil (findAllBlocks (s.data.length + 1) s.data) with h | h
  · rw [h]; exact ⟨rfl, rfl⟩
  · exact findAllBlocks_trimmed _ _ _ h

/-- C9: the extractor returns the last fenced block when at least one fence
pair matches, and the empty string when the input contains no fence at all —
in particular on the two inputs named by the specification. -/
theorem extract_last_block_spec :
    extract_code_blocks "no fences here" = "" ∧
    extract_code_blocks "```a```text```b```" = "b" ∧
    ∀ s : String, hasSub "```" s = false → extract_code_blocks s = "" := by
  refine ⟨by decide, by decide, ?_⟩
  intro s h
  have hnone : splitAtFence s.data = none :=
    splitAtFence_none_of_no_fence s.data h
  unfold extract_code_blocks
  rw [findAllBlocks_eq_nil₁ _ _ hnone]
  rfl

/-- Witness for C9's universally quantified no-fence case at a concrete
input. -/
theorem extract_last_block_spec_witness :
    extract_code_blocks "print(1)" = "" :=
  extract_last_block_spec.2.2 "print(1)" (by decide)

/-- `PASS_STR` of the script: the fixed pass sentinel. -/
def PASS_STR : String :=
  "Project output fully satisfies project description, that is the final version and we can stop iterating"

/-- `FAIL_STR` of the script: the fixed fail sentinel. -/
def FAIL_STR : String :=
  "Project output does not fully satisfy project description, submitting revised script to re-evaluate output"

/-- Python's `str.lower()` (ASCII range, which covers both sentinels). -/
def strLower (s : String) : String := String.mk (s.data.map Char.toLower)

/-- The three-way verdict derived from a judge reply. -/
inductive Verdict where
  | Pass
  | Fail
  | Incomplete
deriving DecidableEq

/-- The verdict classification of `main`:
`lower_resp = response_judge.lower()`, then
`if PASS_STR.lower() in lower_resp: ... elif FAIL_STR.lower() in lower_resp:
... else: ...`. -/
def classifyVerdict (response_judge : String) : Verdict :=
  let lower_resp := strLower response_judge
  if hasSub (strLower PASS_STR) lower_resp then .Pass
  else if hasSub (strLower FAIL_STR) lower_resp then .Fail
  else .Incomplete

/-- Modelled from the spec's words for the refinement comparison of C5: the
variant of the classification that checks the FAIL sentinel before the PASS
sentinel. -/
def classifyVerdictFailFirst (response_judge : String) : Verdict :=
  let lower_resp := strLower response_judge
  if hasSub (strLower FAIL_STR) lower_resp then .Fail
  else if hasSub (strLower PASS_STR) lower_resp then .Pass
  else .Incomplete

/-- Counterexample to C5 as stated: a single reply can contain both
sentinels (nothing prevents a judge reply from quoting both), and on such a
reply the two check orders disagree — Pass-first classifies it `Pass`,
Fail-first classifies it `Fail`. -/
theorem verdict_order_dependent_cex :
    classifyVerdict (PASS_STR ++ " " ++ FAIL_STR)
        ≠ classifyVerdictFailFirst (PASS_STR ++ " " ++ FAIL_STR) ∧
    classifyVerdict (PASS_STR ++ " " ++ FAIL_STR) = .Pass ∧
    classifyVerdictFailFirst (PASS_STR ++ " " ++ FAIL_STR) = .Fail := by
  refine ⟨by decide, by decide, by decide⟩

/-- C5 as amended: neither sentinel occurs inside the other (the fixed
strings are mutually exclusive), so the two check orders agree on every
reply that does not contain both sentinels; order-independence fails only on
replies containing both. -/
theorem verdict_order_independent_amended :
    hasSub (strLower PASS_STR) (strLower FAIL_STR) = false ∧
    hasSub (strLower FAIL_STR) (strLower PASS_STR) = false ∧
    ∀ r : String,
      (hasSub (strLower PASS_STR) (strLower r) = false ∨
       hasSub (strLower FAIL_STR) (strLower r) = false) →
      classifyVerdict r = classifyVerdictFailFirst r := by
  refine ⟨by decide, by decide, ?_⟩
  intro r h
  unfold classifyVerdict classifyVerdictFailFirst
  cases hp : hasSub (strLower PASS_STR) (strLower r) <;>
    cases hf : hasSub (strLower FAIL_STR) (strLower r) <;>
      simp only [hp, hf, if_true, if_false, Bool.false_eq_true, ite_false, ite_true]
  · rcases h with h | h
    · rw [hp] at h; cases h
    · rw [hf] at h; cases h

/-- Witness for C5's amended order-independence at a concrete reply
containing neither sentinel. -/
theorem verdict_order_independent_amended_witness :
    classifyVerdict "No response due to an error."
      = classifyVerdictFailFirst "No response due to an error." :=
  verdict_order_independent_amended.2.2 "No response due to an error."
    (Or.inl (by decide))

/-- The outcome of one exchange with the completion backend, as observed
inside `openai_chat_completion`'s `try` block: either the reply content at
`choices[0].message.content`, or any raised exception (network failure,
non-success HTTP status via `raise_for_status`, malformed/shape-mismatched
response body, API library error), carried as its message text. -/
inductive ApiResult where
  | success (content : String)
  | failure (error : String)

/-- The script's configured `API_MODE`. -/
def API_MODE : String := "local"

/-- `openai_chat_completion(messages)`: dispatch on the configured mode; in
both supported modes any exception from the exchange is caught and replaced
by the fixed sentinel text, so the function returns text in every case (the
total Lean type `String` is the no-raise contract); an invalid mode yields a
distinct sentinel. -/
def openai_chat_completion (api_mode : String) (messages : List Msg)
    (backend : ApiResult) : String :=
  if api_mode == "openai" then
    match backend with
    | .success content => content
    | .failure _ => "No response due to an error."
  else if api_mode == "local" then
    match backend with
    | .success content => content
    | .failure _ => "No response due to an error."
  else
    "No response due to error in API_MODE."

/-- C4: the completion client is fail-soft — for every conversation and
every transport/backend error, in either supported mode (and in particular
in the configured mode), the call returns the exact sentinel text instead of
raising. -/
theorem completion_client_fail_soft :
    (∀ (messages : List Msg) (e : String),
      openai_chat_completion "openai" messages (.failure e)
        = "No response due to an error.") ∧
    (∀ (messages : List Msg) (e : String),
      openai_chat_completion "local" messages (.failure e)
        = "No response due to an error.") ∧
    (∀ (messages : List Msg) (e : String),
      openai_chat_completion API_MODE messages (.failure e)
        = "No response due to an error.") := by
  refine ⟨fun _ _ => rfl, fun _ _ => rfl, fun _ _ => rfl⟩

/-- `MAX_CODE_HISTORY`: the history retention window, in rounds. -/
def MAX_CODE_HISTORY : Nat := 3

/-- `MAX_FAIL_WO_FDBK`: consecutive FAILs before feedback is forced. -/
def MAX_FAIL_WO_FDBK : Nat := 10

/-- The deterministic name used by `save_code_permanently`:
`f"{script_name}_{timestamp}_fdbk{feedback_iter}_iter{code_iter}.py"`. -/
def save_code_filename (script_name timestamp : String)
    (feedback_iter code_iter : Nat) : String :=
  script_name ++ "_" ++ timestamp ++ "_fdbk" ++ toString feedback_iter ++
    "_iter" ++ toString code_iter ++ ".py"

/-- The deterministic name used by `save_output_permanently`:
`f"{script_name}_{timestamp}_fdbk{feedback_iter}_iter{code_iter}.txt"`. -/
def save_output_filename (script_name timestamp : String)
    (feedback_iter code_iter : Nat) : String :=
  script_name ++ "_" ++ timestamp ++ "_fdbk" ++ toString feedback_iter ++
    "_iter" ++ toString code_iter ++ ".txt"

/-- Which of the two persistence functions produced a durable write. -/
inductive SaveKind where
  | code
  | output
deriving DecidableEq

/-- One durable write performed during an iteration: the file name and the
text written to it. -/
structure SaveEvent where
  kind : SaveKind
  fname : String
  content : String
deriving DecidableEq

/-- Python truthiness of `s.strip()`: `true` when the string is empty or
whitespace-only. -/
def isBlank (s : String) : Bool := s.data.all pyWs

/-- `request_user_feedback()`: return the operator's line when its stripped
form is non-empty, else `None`. -/
def request_user_feedback (raw : String) : Option String :=
  if isBlank raw then none else some raw

/-- The hardcoded project description of `main`. -/
def project_description : String :=
  "\n    You, an LLM, are being called by a python script on my, the user's, computer.\n    You are running locally thus I am not paying per token, and I can run you indefinitely for only electricity cost.\n    The API to access you is located at http://127.0.0.1:1234/v1/chat/completions\n    Please try to write a python script that demonstrates connecting to the API and getting a test response in a chat message format.\n    The output format should resemble an IRC log, as [timestamp] <user>:\n    "

/-- `user_msg_gen`, the Code Generation Step user message of `main`. -/
def genUserMsg : Msg :=
  ⟨"user",
   "We are in the Code Generation Step.\nProject description:\n" ++
     project_description ++
     "\n\nPlease return full valid Python code (in triple backticks) with no pass/fail statements.\n"⟩

/-- `user_msg_judge`, the Code Judgment Step user message of `main`. -/
def judgeUserMsg (current_code last_run_output : String) : Msg :=
  ⟨"user",
   "We are in the Code Judgment Step.\nProject description:\n" ++
     project_description ++
     "\n\nHere is the code:\n```python\n" ++ current_code ++
     "\n```\n\nAnd here is the output:\n" ++ last_run_output ++
     "\n\nIf the output satisfies the project, reply exactly:\n" ++ PASS_STR ++
     "\n\nOtherwise reply exactly:\n" ++ FAIL_STR ++
     "\n\nFollowed by a failure analysis, and then a final updated version."⟩

/-- `feedback_msg`, the message appended by `handle_user_feedback`. -/
def feedbackUserMsg (user_feedback : String) : Msg :=
  ⟨"user",
   "User Feedback:\n" ++ user_feedback ++
     "\nPlease revise or improve the code accordingly, returning only the code in triple backticks, no pass/fail statements."⟩

/-- The mutable per-iteration state of `main`'s `while` loop. -/
structure LoopState where
  history : List Msg
  feedback_round : Nat
  code_iter : Nat
  project_complete : Bool
  pending_fail_code : Option String
  fails_since_feedback : Nat
  total_passes : Nat
  total_fails : Nat
  current_code : String
  last_run_output : String
deriving DecidableEq

/-- The external collaborators of one loop iteration: the completion backend
(one exchange outcome per call site, as a function of the transcript sent),
the sandboxed runner's combined output for the code it is given, and the
operator's raw feedback line (read at most once per iteration, in the PASS
branch or the forced-feedback FAIL branch). -/
structure Oracle where
  genBackend : List Msg → ApiResult
  judgeBackend : List Msg → ApiResult
  runOutput : String → String
  feedback : String

/-- `handle_user_feedback(user_feedback, conversation_history,
feedback_round)`: increment the feedback round, reset the code iteration,
append the feedback-tagged user message. -/
def handle_user_feedback (user_feedback : String) (st : LoopState) : LoopState :=
  { st with feedback_round := st.feedback_round + 1, code_iter := 0,
            history := st.history ++ [feedbackUserMsg user_feedback] }

/-- The CODE GENERATION STEP of one iteration (after the iteration's opening
prune of the history): either reuse `pending_fail_code` and skip the
completion call, or append the generation message, prune, call the backend,
record the assistant reply, extract the code and (when non-empty) persist
it.  Returns the updated state, `new_code`, and the durable writes. -/
def genPhase (script_name timestamp : String) (o : Oracle) (st : LoopState) :
    LoopState × String × List SaveEvent :=
  let st0 := { st with history := prune_history st.history MAX_CODE_HISTORY }
  match st0.pending_fail_code with
  | some pc =>
    ({ st0 with code_iter := st0.code_iter + 1, pending_fail_code := none }, pc, [])
  | none =>
    let st1 := { st0 with code_iter := st0.code_iter + 1 }
    let h1 := prune_history (st1.history ++ [genUserMsg]) MAX_CODE_HISTORY
    let response_gen := openai_chat_completion API_MODE h1 (o.genBackend h1)
    let h2 := h1 ++ [⟨"assistant", response_gen⟩]
    let new_code := extract_code_blocks response_gen
    if isBlank new_code then
      ({ st1 with history := h2, last_run_output := "No code was returned." }, "", [])
    else
      ({ st1 with history := h2 }, new_code,
       [⟨.code,
         save_code_filename script_name timestamp st1.feedback_round st1.code_iter,
         new_code⟩])

/-- The RUN CODE step: when `new_code` strips non-empty, run it and persist
the combined output; else record the "No code was run." sentinel. -/
def runPhase (script_name timestamp : String) (o : Oracle) (st : LoopState)
    (new_code : String) : LoopState × List SaveEvent :=
  if isBlank new_code then
    ({ st with current_code := "", last_run_output := "No code was run." }, [])
  else
    let out := o.runOutput new_code
    ({ st with current_code := new_code, last_run_output := out },
     [⟨.output,
       save_output_filename script_name timestamp st.feedback_round st.code_iter,
       out⟩])

/-- The CODE JUDGMENT step: append the judgment message, prune, call the
backend, record the assistant reply.  Returns the updated state and the
judge reply text. -/
def judgePhase (o : Oracle) (st : LoopState) : LoopState × String :=
  let h1 := prune_history
    (st.history ++ [judgeUserMsg st.current_code st.last_run_output])
    MAX_CODE_HISTORY
  let response_judge := openai_chat_completion API_MODE h1 (o.judgeBackend h1)
  ({ st with history := h1 ++ [⟨"assistant", response_judge⟩] }, response_judge)

/-- The verdict branch of one iteration: PASS resets the consecutive-fail
counter and solicits feedback (empty feedback finalises the project); FAIL
bumps both fail counters, stashes any revised code, and at the
consecutive-fail threshold forces a feedback solicitation that never
finalises and resets the counter regardless; INCOMPLETE only stashes any
revised code. -/
def branchPhase (o : Oracle) (st : LoopState) (response_judge : String) :
    LoopState :=
  match classifyVerdict response_judge with
  | .Pass =>
    let st1 := { st with total_passes := st.total_passes + 1,
                         fails_since_feedback := 0 }
    match request_user_feedback o.feedback with
    | some f => handle_user_feedback f st1
    | none => { st1 with project_complete := true }
  | .Fail =>
    let st1 := { st with total_fails := st.total_fails + 1,
                         fails_since_feedback := st.fails_since_feedback + 1 }
    let revised_code := extract_code_blocks response_judge
    let st2 := if isBlank revised_code then st1
               else { st1 with pending_fail_code := some revised_code }
    if MAX_FAIL_WO_FDBK ≤ st2.fails_since_feedback then
      let st3 := match request_user_feedback o.feedback with
        | some f => handle_user_feedback f st2
        | none => st2
      { st3 with fails_since_feedback := 0 }
    else st2
  | .Incomplete =>
    let revised_code := extract_code_blocks response_judge
    if isBlank revised_code then st
    else { st with pending_fail_code := some revised_code }

/-- The state and durable writes after the generation and run steps. -/
def iterAfterRun (script_name timestamp : String) (o : Oracle) (st : LoopState) :
    LoopState × List SaveEvent :=
  let g := genPhase script_name timestamp o st
  let r := runPhase script_name timestamp o g.1 g.2.1
  (r.1, g.2.2 ++ r.2)

/-- The judge reply text produced during the iteration. -/
def iterJudgeReply (script_name timestamp : String) (o : Oracle)
    (st : LoopState) : String :=
  (judgePhase o (iterAfterRun script_name timestamp o st).1).2

/-- The `new_code` of the iteration: the reused pending code, or the code
extracted from the fresh generation reply. -/
def iterNewCode (script_name timestamp : String) (o : Oracle)
    (st : LoopState) : String :=
  (genPhase script_name timestamp o st).2.1

/-- One full iteration of `main`'s `while not project_complete` loop:
prune, generate or reuse, run, judge, branch.  Returns the successor state
and the durable writes of the iteration. -/
def iterationStep (script_name timestamp : String) (o : Oracle)
    (st : LoopState) : LoopState × List SaveEvent :=
  let ar := iterAfterRun script_name timestamp o st
  let j := judgePhase o ar.1
  (branchPhase o j.1 j.2, ar.2)

/-- The generation step never touches `project_complete`. -/
theorem genPhase_complete (script_name timestamp : String) (o : Oracle)
    (st : LoopState) :
    (genPhase script_name timestamp o st).1.project_complete
      = st.project_complete := by
  unfold genPhase
  cases h : st.pending_fail_code with
  | some pc => simp [h]
  | none =>
    simp only [h]
    split <;> rfl

/-- The run step never touches `project_complete`. -/
theorem runPhase_complete (script_name timestamp : String) (o : Oracle)
    (st : LoopState) (new_code : String) :
    (runPhase script_name timestamp o st new_code).1.project_complete
      = st.project_complete := by
  unfold runPhase
  split <;> rfl

/-- The judgment step never touches `project_complete`. -/
theorem judgePhase_complete (o : Oracle) (st : LoopState) :
    (judgePhase o st).1.project_complete = st.project_complete := rfl

/-- Generation followed by run never touches `project_complete`. -/
theorem iterAfterRun_complete (script_name timestamp : String) (o : Oracle)
    (st : LoopState) :
    (iterAfterRun script_name timestamp o st).1.project_complete
      = st.project_complete := by
  unfold iterAfterRun
  rw [runPhase_complete, genPhase_complete]

/-- `request_user_feedback` returns `none` exactly on blank input. -/
theorem request_user_feedback_none (raw : String) :
    request_user_feedback raw = none ↔ isBlank raw = true := by
  unfold request_user_feedback
  split <;> simp_all

/-- The verdict branch finalises the project exactly on a PASS verdict with
blank operator feedback. -/
theorem branchPhase_complete (o : Oracle) (st : LoopState)
    (response_judge : String) (h : st.project_complete = false) :
    ((branchPhase o st response_judge).project_complete = true ↔
      (classifyVerdict response_judge = .Pass ∧ isBlank o.feedback = true)) := by
  unfold branchPhase
  cases hv : classifyVerdict response_judge with
  | Pass =>
    cases hfb : request_user_feedback o.feedback with
    | some f =>
      have hb : ¬ isBlank o.feedback = true := by
        intro hbl
        rw [(request_user_feedback_none o.feedback).mpr hbl] at hfb
        cases hfb
      simp [handle_user_feedback, h, hb]
    | none =>
      have hb : isBlank o.feedback = true :=
        (request_user_feedback_none o.feedback).mp hfb
      simp [hb]
  | Fail =>
    by_cases hrc : isBlank (extract_code_blocks response_judge) <;>
      by_cases hth : MAX_FAIL_WO_FDBK ≤ st.fails_since_feedback + 1 <;>
        cases hfb : request_user_feedback o.feedback <;>
          simp [hrc, hth, hfb, handle_user_feedback, h]
  | Incomplete =>
    by_cases hrc : isBlank (extract_code_blocks response_judge) <;>
      simp [hrc, h]

/-- C2: the loop halts only via the PASS branch with blank feedback — an
iteration starting from a non-finalised state finalises the project exactly
when the judge reply classifies as PASS and the operator's feedback line is
empty or whitespace-only; in every other case (FAIL, INCOMPLETE, non-empty
feedback after PASS, and the forced-feedback prompt at the consecutive-fail
threshold even with empty feedback) the loop continues. -/
theorem loop_halts_only_on_pass_with_blank_feedback
    (script_name timestamp : String) (o : Oracle) (st : LoopState)
    (h : st.project_complete = false) :
    ((iterationStep script_name timestamp o st).1.project_complete = true ↔
      (classifyVerdict (iterJudgeReply script_name timestamp o st) = .Pass ∧
       isBlank o.feedback = true)) := by
  have hstep : (iterationStep script_name timestamp o st).1
      = branchPhase o (judgePhase o (iterAfterRun script_name timestamp o st).1).1
          (iterJudgeReply script_name timestamp o st) := rfl
  rw [hstep]
  apply branchPhase_complete
  rw [judgePhase_complete, iterAfterRun_complete]
  exact h

/-- A concrete oracle for the C2 witness: an erroring backend, the identity
runner, and an empty operator feedback line. -/
def witnessOracle : Oracle where
  genBackend := fun _ => .failure "conn refused"
  judgeBackend := fun _ => .failure "conn refused"
  runOutput := fun _ => ""
  feedback := ""

/-- A concrete non-finalised starting state for the C2 witness. -/
def witnessState : LoopState where
  history := [⟨"system", "sys"⟩, ⟨"user", "task"⟩]
  feedback_round := 0
  code_iter := 0
  project_complete := false
  pending_fail_code := none
  fails_since_feedback := 0
  total_passes := 0
  total_fails := 0
  current_code := ""
  last_run_output := ""

/-- Witness for C2 on a concrete state and oracle. -/
theorem loop_halts_only_on_pass_witness :
    ((iterationStep "v42-rel1" "20250101T000000Z" witnessOracle
          witnessState).1.project_complete = true ↔
      (classifyVerdict (iterJudgeReply "v42-rel1" "20250101T000000Z"
          witnessOracle witnessState) = .Pass ∧
       isBlank witnessOracle.feedback = true)) :=
  loop_halts_only_on_pass_with_blank_feedback "v42-rel1" "20250101T000000Z"
    witnessOracle witnessState rfl

/-- The generation step never touches `feedback_round`. -/
theorem genPhase_feedback_round (script_name timestamp : String) (o : Oracle)
    (st : LoopState) :
    (genPhase script_name timestamp o st).1.feedback_round = st.feedback_round := by
  unfold genPhase
  cases h : st.pending_fail_code with
  | some pc => simp [h]
  | none =>
    simp only [h]
    split <;> rfl

/-- The generation step increments `code_iter` by one in both branches. -/
theorem genPhase_code_iter (script_name timestamp : String) (o : Oracle)
    (st : LoopState) :
    (genPhase script_name timestamp o st).1.code_iter = st.code_iter + 1 := by
  unfold genPhase
  cases h : st.pending_fail_code with
  | some pc => simp [h]
  | none =>
    simp only [h]
    split <;> rfl

/-- The run step on code that strips non-empty persists exactly the combined
run output, under the deterministic output file name. -/
theorem runPhase_events (script_name timestamp : String) (o : Oracle)
    (st : LoopState) (new_code : String) (hb : isBlank new_code = false) :
    (runPhase script_name timestamp o st new_code).2
      = [⟨.output,
          save_output_filename script_name timestamp st.feedback_round st.code_iter,
          o.runOutput new_code⟩] := by
  unfold runPhase
  rw [if_neg (by simp [hb])]

/-- On a reuse iteration the generation step performs no durable write. -/
theorem genPhase_some_events (script_name timestamp : String) (o : Oracle)
    (st : LoopState) (pc : String) (hp : st.pending_fail_code = some pc) :
    (genPhase script_name timestamp o st).2.2 = [] := by
  unfold genPhase
  simp [hp]

/-- On a fresh-generation iteration, either the extracted code is blank, or
the generation step persists exactly the code under the deterministic code
file name. -/
theorem genPhase_none_events (script_name timestamp : String) (o : Oracle)
    (st : LoopState) (hp : st.pending_fail_code = none) :
    (isBlank (iterNewCode script_name timestamp o st) = true) ∨
    ((genPhase script_name timestamp o st).2.2
      = [⟨.code,
          save_code_filename script_name timestamp st.feedback_round (st.code_iter + 1),
          iterNewCode script_name timestamp o st⟩]) := by
  unfold iterNewCode genPhase
  simp only [hp]
  split
  · left; rfl
  · right; rfl

/-- C3 as amended: in every iteration whose (fresh or reused) code strips
non-empty, the combined run output is persisted under the deterministic
output name keyed by process-start timestamp, feedback round, and
incremented code iteration; the code itself is additionally persisted under
the matching code name exactly when the iteration generated it fresh —
iterations that reuse pending carried-over code persist only the output, not
the code. -/
theorem iteration_persists_output_and_fresh_code
    (script_name timestamp : String) (o : Oracle) (st : LoopState)
    (h : isBlank (iterNewCode script_name timestamp o st) = false) :
    (SaveEvent.mk .output
        (save_output_filename script_name timestamp st.feedback_round (st.code_iter + 1))
        (o.runOutput (iterNewCode script_name timestamp o st))
      ∈ (iterationStep script_name timestamp o st).2) ∧
    (st.pending_fail_code = none →
      SaveEvent.mk .code
        (save_code_filename script_name timestamp st.feedback_round (st.code_iter + 1))
        (iterNewCode script_name timestamp o st)
      ∈ (iterationStep script_name timestamp o st).2) ∧
    (∀ pc, st.pending_fail_code = some pc →
      ∀ e ∈ (iterationStep script_name timestamp o st).2, e.kind = SaveKind.output) := by
  have hga : (iterationStep script_name timestamp o st).2
      = (genPhase script_name timestamp o st).2.2 ++
          (runPhase script_name timestamp o (genPhase script_name timestamp o st).1
            (genPhase script_name timestamp o st).2.1).2 := rfl
  have hbcode : isBlank (genPhase script_name timestamp o st).2.1 = false := h
  have hrun : (runPhase script_name timestamp o (genPhase script_name timestamp o st).1
        (genPhase script_name timestamp o st).2.1).2
      = [⟨.output,
          save_output_filename script_name timestamp st.feedback_round (st.code_iter + 1),
          o.runOutput ((genPhase script_name timestamp o st).2.1)⟩] := by
    rw [runPhase_events _ _ _ _ _ hbcode, genPhase_feedback_round, genPhase_code_iter]
  refine ⟨?_, ?_, ?_⟩
  · rw [hga, hrun]
    exact List.mem_append_right _ (List.mem_singleton.mpr rfl)
  · intro hpnone
    rcases genPhase_none_events script_name timestamp o st hpnone with hbt | hev
    · rw [h] at hbt; cases hbt
    · rw [hga, hev]
      exact List.mem_append_left _ (List.mem_singleton.mpr rfl)
  · intro pc hpc e he
    rw [hga, genPhase_some_events script_name timestamp o st pc hpc, hrun] at he
    simp only [List.nil_append, List.mem_singleton] at he
    subst he
    rfl

/-- A concrete oracle for the C3 theorems: a dead backend for generation, a
judge reply with no sentinel and no code, a runner producing fixed output,
empty operator feedback. -/
def reuseOracle : Oracle where
  genBackend := fun _ => .failure "backend down"
  judgeBackend := fun _ => .success "needs work"
  runOutput := fun _ => "ran fine\n"
  feedback := ""

/-- A concrete state carrying pending code from a prior Fail/Incomplete
judge reply, about to be reused. -/
def reuseState : LoopState where
  history := [⟨"system", "sys prompt"⟩, ⟨"user", "task"⟩]
  feedback_round := 0
  code_iter := 0
  project_complete := false
  pending_fail_code := some "print(42)"
  fails_since_feedback := 0
  total_passes := 0
  total_fails := 0
  current_code := ""
  last_run_output := ""

/-- Counterexample to C3 as stated: an iteration that reuses non-empty
pending code runs it and persists the output, but performs no code-file
write at all — the reused code is never passed to `save_code_permanently`,
so "both code and output are persisted" fails on reuse iterations. -/
theorem reuse_iteration_saves_no_code_file :
    isBlank (iterNewCode "v42-rel1" "20250101T000000Z" reuseOracle reuseState) = false ∧
    ((iterationStep "v42-rel1" "20250101T000000Z" reuseOracle reuseState).2.all
        (fun e => e.kind == SaveKind.output)) = true ∧
    ((iterationStep "v42-rel1" "20250101T000000Z" reuseOracle reuseState).2.any
        (fun e => e.kind == SaveKind.output)) = true := by
  refine ⟨by decide, by decide, by decide⟩

/-- A concrete oracle for the C3 witness: the backend returns a fenced
program fresh. -/
def freshOracle : Oracle where
  genBackend := fun _ => .success "```python\nprint(1)\n```"
  judgeBackend := fun _ => .success "done"
  runOutput := fun _ => "1\n"
  feedback := ""

/-- A concrete fresh-generation state (no pending code) for the C3
witness. -/
def freshState : LoopState where
  history := [⟨"system", "sys prompt"⟩, ⟨"user", "task"⟩]
  feedback_round := 0
  code_iter := 0
  project_complete := false
  pending_fail_code := none
  fails_since_feedback := 0
  total_passes := 0
  total_fails := 0
  current_code := ""
  last_run_output := ""

/-- Witness for C3's amended persistence theorem on a concrete fresh
iteration. -/
theorem iteration_persists_witness :
    SaveEvent.mk .code (save_code_filename "v42-rel1" "20250101T000000Z" 0 1)
        (iterNewCode "v42-rel1" "20250101T000000Z" freshOracle freshState)
      ∈ (iterationStep "v42-rel1" "20250101T000000Z" freshOracle freshState).2 :=
  (iteration_persists_output_and_fresh_code "v42-rel1" "20250101T000000Z"
      freshOracle freshState (by decide)).2.1 rfl
